import Mathlib

/-!
Verification of the client-side engine of the `reflections` repository
(`src/article.js`, `src/lib.js`): the variable-binding store, the session-state
binding decode, the coordinate view and wheel zoom, the proximity
correspondence finder, and the render controller's compute/draw event loop.
Numeric fields are modelled over `ℚ` (exact rationals standing for the
JavaScript float values; `parseFloat` failure, i.e. `NaN`, is modelled as
`Option.none`), except the coordinate view, which uses `ℝ` because the zoom
factor is a real exponential `2 ^ scale`.
-/

namespace Reflections

/-- The `Binding` record `{value, min, max, step}` held per variable name.
The class itself is declared outside `src/`; every call site in
`src/article.js` constructs it positionally as
`new Binding(value, min, max, step)` and reads the four fields back, so it is
a plain record (spec section 3 gives the same shape). -/
structure Binding where
  value : ℚ
  min : ℚ
  max : ℚ
  step : ℚ
deriving DecidableEq

/-- `Math.round` on a rational: round half toward positive infinity,
`Math.round(x) = ⌊x + 1/2⌋`. -/
def jsRound (q : ℚ) : ℚ := (⌊q + 1/2⌋ : ℤ)

/-- The step derivation of the session-state binding decode
(`src/article.js` lines 601–607): `step = (max - min) / 100`, rounded when
greater than `1`. -/
def stepFromSpan (mn mx : ℚ) : ℚ :=
  if (mx - mn) / 100 > 1 then jsRound ((mx - mn) / 100) else (mx - mn) / 100

/-- The pre-collapse `min` of the decode (`src/article.js` lines 584–590):
missing `min`/`max` are copied from whichever is present, `(-256, 256)` when
both are missing. -/
def rawMin : Option ℚ → Option ℚ → ℚ
  | none, none => -256
  | none, some mx => mx
  | some mn, _ => mn

/-- The pre-collapse `max` of the decode (`src/article.js` lines 584–590). -/
def rawMax : Option ℚ → Option ℚ → ℚ
  | none, none => 256
  | some mn, none => mn
  | _, some mx => mx

/-- The midpoint `mid = (min + max) / 2` (`src/article.js` line 591). -/
def rawMid (min0 max0 : Option ℚ) : ℚ := (rawMin min0 max0 + rawMax min0 max0) / 2

/-- The repaired `min`: a reversed range collapses to its midpoint
(`src/article.js` lines 592–594). -/
def repairedMin (min0 max0 : Option ℚ) : ℚ :=
  if rawMin min0 max0 > rawMax min0 max0 then rawMid min0 max0 else rawMin min0 max0

/-- The repaired `max` (`src/article.js` lines 592–594). -/
def repairedMax (min0 max0 : Option ℚ) : ℚ :=
  if rawMin min0 max0 > rawMax min0 max0 then rawMid min0 max0 else rawMax min0 max0

/-- The decoded `value` (`src/article.js` lines 595–600): a missing value
defaults to the midpoint, then `value = Math.max(min, Math.min(max, value))`. -/
def decodeValue (value0 min0 max0 : Option ℚ) : ℚ :=
  max (repairedMin min0 max0)
    (min (repairedMax min0 max0)
      (match value0 with
        | none => rawMid min0 max0
        | some v => v))

/-- The decoded `step` (`src/article.js` lines 601–608): a missing or
non-positive step is derived from the span, and finally
`step = Math.min((max - min) / 2, step)`. -/
def decodeStep (step0 min0 max0 : Option ℚ) : ℚ :=
  min ((repairedMax min0 max0 - repairedMin min0 max0) / 2)
    (match step0 with
      | none => stepFromSpan (repairedMin min0 max0) (repairedMax min0 max0)
      | some s =>
        if s ≤ 0 then stepFromSpan (repairedMin min0 max0) (repairedMax min0 max0)
        else s)

/-- The partially-invalid branch of the session-state binding decode
(`src/article.js` lines 581–609), assembled from the field repairs above. -/
def decodeBindingCore (value0 min0 max0 step0 : Option ℚ) : Binding :=
  ⟨decodeValue value0 min0 max0,
   repairedMin min0 max0,
   repairedMax min0 max0,
   decodeStep step0 min0 max0⟩

/-- The session-state binding decode of `src/article.js` lines 574–611.
Each of the four numeric fields arrives as a string put through `parseFloat`;
an unparseable field (`NaN`) is `none`.  If all four are unparseable the
decode substitutes the full default `(0, -256, 256, 1)`; otherwise the
partial-repair branch `decodeBindingCore` runs. -/
def decodeBinding (value0 min0 max0 step0 : Option ℚ) : Binding :=
  if value0.isNone ∧ min0.isNone ∧ max0.isNone ∧ step0.isNone then
    ⟨0, -256, 256, 1⟩
  else
    decodeBindingCore value0 min0 max0 step0

/-- JavaScript's ASCII `\w` character class `[A-Za-z0-9_]`, used by the `\b`
word boundary in `Equation.variables`. -/
def isWordChar (c : Char) : Bool := c.isAlpha || c.isDigit || c == '_'

/-- The character class `[a-z]` of the regex in `Equation.variables`
(`src/lib.js` line 808): ASCII lowercase Latin letters only. -/
def isLowerLatin (c : Char) : Bool := 'a' ≤ c && c ≤ 'z'

/-- Scan for the matches of `/\b[a-z]\b/g` (`src/lib.js` line 808): a
lowercase ASCII letter whose neighbours on both sides are absent or non-word
characters.  `prev` carries the previously consumed character. -/
def matchSingleLetters : Option Char → List Char → List Char
  | _, [] => []
  | prev, c :: rest =>
    let boundaryLeft := match prev with
      | none => true
      | some p => !isWordChar p
    let boundaryRight := match rest with
      | [] => true
      | r :: _ => !isWordChar r
    if isLowerLatin c && boundaryLeft && boundaryRight then
      c :: matchSingleLetters (some c) rest
    else
      matchSingleLetters (some c) rest

/-- `Equation.variables()` (`src/lib.js` lines 807–809): the set (deduplicated
match list) of standalone single letters in the equation text. -/
def variablesOf (s : List Char) : List Char :=
  (matchSingleLetters none s).dedup

/-- The free variables of an equation as used by `extract_variables`
(`src/article.js` lines 1085–1091): `Equation.variables()` minus the two
reserved iteration parameters `t` and `s`. -/
def freeVariablesOf (s : List Char) : List Char :=
  (variablesOf s).filter (fun c => !(c == 't' || c == 's'))

/-- Association-list lookup keyed by variable name, modelling `Map.get`. -/
def lookupKey {α : Type} : List (Char × α) → Char → Option α
  | [], _ => none
  | (k, a) :: rest, k' => if k = k' then some a else lookupKey rest k'

/-- `Map.set`: replace the entry in place when present, append otherwise. -/
def setKey {α : Type} : List (Char × α) → Char → α → List (Char × α)
  | [], k, a => [(k, a)]
  | (k', a') :: rest, k, a =>
    if k' = k then (k, a) :: rest else (k', a') :: setKey rest k a

/-- The default `Binding` table of `extract_variables`
(`src/article.js` lines 1111–1121): the scaling special variable `σ` gets
`new Binding(-1, -2, 2, -1)` (the fourth, `step`, argument is `-1`); every
other variable gets `new Binding(0, -256, 256, 1)`. -/
def defaultBindingFor (v : Char) : Binding :=
  if v = 'σ' then ⟨-1, -2, 2, -1⟩ else ⟨0, -256, 256, 1⟩

/-- The ensure-present step of `extract_variables` (`src/article.js`
lines 1109–1122): create the default binding only when the name is absent. -/
def ensureBinding (st : List (Char × Binding)) (v : Char) : List (Char × Binding) :=
  if (lookupKey st v).isSome then st else setKey st v (defaultBindingFor v)

/-- The value an `<input type="range">` element reports. Modelled from the
spec: the slider write path (`src/article.js` lines 1063–1068) stores
`parseFloat(self.value)` where `self` is a `RangeSlider` created with the
binding's `min` and `max` attributes; the HTML range-input contract the code
relies on sanitizes the element's value into `[min, max]`, which is the
clamping §4.2 of the spec attributes to `set(name, value)`. -/
def rangeInputValue (mn mx raw : ℚ) : ℚ := max mn (min mx raw)

/-- The slider `input` listener body (`src/article.js` line 1066):
`bindings.get(v).value = parseFloat(self.value)`, with the incoming slider
value given by `rangeInputValue` over the binding's own range. -/
def sliderInput (b : Binding) (raw : ℚ) : Binding :=
  { b with value := rangeInputValue b.min b.max raw }

/-- The slider `input` listener at the store level: mutate the `value` field
of the named binding in place; names are never added or removed here. -/
def sliderSet (st : List (Char × Binding)) (v : Char) (raw : ℚ) :
    List (Char × Binding) :=
  match st with
  | [] => []
  | (k, b) :: rest =>
    if k = v then (k, sliderInput b raw) :: rest else (k, b) :: sliderSet rest v raw

/-- The controller state touched by `extract_variables`: the persistent
binding store `bindings` and the slider map `var_map` (modelled as name ↦
visible flag; the DOM node a name maps to is irrelevant to the store claims). -/
structure UIState where
  bindings : List (Char × Binding)
  varMap : List (Char × Bool)
deriving DecidableEq

/-- One iteration of the `for (const v of all_vars)` loop of
`extract_variables` (`src/article.js` lines 1107–1137): a currently-free
variable gets a (created-if-absent) binding and a visible slider; a
no-longer-free variable only has its slider hidden. -/
def extractStep (vars : List Char) (ui : UIState) (v : Char) : UIState :=
  if v ∈ vars then
    if (lookupKey ui.varMap v).isSome then
      { ui with varMap := setKey ui.varMap v true }
    else
      { bindings := ensureBinding ui.bindings v,
        varMap := setKey ui.varMap v true }
  else
    { ui with varMap := setKey ui.varMap v false }

/-- `extract_variables` (`src/article.js` lines 1057–1144): fold the loop body
over `all_vars`, the union of the slider map's keys and the currently free
variables.  The source sorts this list (Greek letters first, then
locale-compare order) before iterating; the sort only permutes the iteration
order and is not reproduced here. -/
def extractVariables (ui : UIState) (vars : List Char) : UIState :=
  ((ui.varMap.map Prod.fst ++ vars).dedup).foldl (extractStep vars) ui

/-- The view (`src/lib.js` lines 624–633): centre `origin` in logical
coordinates, surface size in pixels, and a base-2 exponential zoom factor. -/
structure View where
  origin : ℝ × ℝ
  width : ℝ
  height : ℝ
  scale : ℝ

/-- The zoom factor `2 ** s` for a real scale exponent. -/
noncomputable def pow2 (s : ℝ) : ℝ := (2 : ℝ) ^ s

/-- `Graph.adjust_point` (`src/lib.js` lines 645–651): map a logical point to
surface coordinates, `(p - origin) * 2^scale + size/2`. -/
noncomputable def adjustPoint (v : View) (p : ℝ × ℝ) : ℝ × ℝ :=
  ((p.1 - v.origin.1) * pow2 v.scale + v.width / 2,
   (p.2 - v.origin.2) * pow2 v.scale + v.height / 2)

/-- The `wheel` listener (`src/article.js` lines 665–685) with a pointer
present: damp the scroll delta, shift the origin by the pointer's offset from
centre times `2^-scale - 2^-scale_next` (the y component subtracted because
pointer y grows downward while logical y grows upward), then set the new
scale. -/
noncomputable def wheelZoom (v : View) (pointer : ℝ × ℝ) (deltaY : ℝ) : View :=
  let scaleNext := v.scale - deltaY / 200
  let offsetX := pointer.1 - v.width / 2
  let offsetY := pointer.2 - v.height / 2
  let scaleDelta := pow2 (-v.scale) - pow2 (-scaleNext)
  { origin := (v.origin.1 + offsetX * scaleDelta, v.origin.2 - offsetY * scaleDelta),
    width := v.width,
    height := v.height,
    scale := scaleNext }

/-- The logical point rendered at a given pointer surface position: the
inverse of `adjustPoint` combined with the vertical flip of the pointer's
y coordinate (the hover code compares adjusted points against
`(pointer.x, height - pointer.y)`). -/
noncomputable def logicalUnderPointer (v : View) (pointer : ℝ × ℝ) : ℝ × ℝ :=
  (v.origin.1 + (pointer.1 - v.width / 2) * pow2 (-v.scale),
   v.origin.2 - (pointer.2 - v.height / 2) * pow2 (-v.scale))

/-- The null-sentinel filter and adjustment of the hover handler
(`src/article.js` lines 755–764): a correspondence tuple is a list of
components, each `some` adjusted point or the `none` sentinel (the backend
serializes unknown points as `null`).  Tuples containing any `null` component
are dropped wholesale; the survivors are mapped through
`Graph.adjust_point`. The trailing `.filter(x => x !== null)` of the source
is a no-op (the map never produces `null`) and is not reproduced. -/
noncomputable def filterKnownTuples (v : View)
    (pts : List (List (Option (ℝ × ℝ)))) : List (List (ℝ × ℝ)) :=
  (pts.filter (fun t => !(t.any Option.isNone))).map
    (fun t => t.filterMap (fun o => o.map (adjustPoint v)))

/-- A correspondence tuple destructured by the hover loop
(`src/article.js` line 770): reflection image, figure source,
mirror-near-figure and mirror-near-reflection points, already adjusted to
surface coordinates. -/
structure CorrTuple where
  r : ℚ × ℚ
  f : ℚ × ℚ
  mf : ℚ × ℚ
  mr : ℚ × ℚ
deriving DecidableEq

/-- The per-role accumulator `ProximalPoints` (`src/article.js`
lines 728–742): the tuples whose point for this role lies within the
threshold, and the minimum distance seen.  Distances are modelled by their
squares (exact in `ℚ`): `Math.hypot d ≤ t ↔ d² ≤ t²` and squaring is
monotone, so minima, comparisons and ties are preserved. `⊤` is the initial
`Infinity`. -/
structure ProxState where
  points : List CorrTuple
  distance : WithTop ℚ
deriving DecidableEq

/-- The empty accumulator `new ProximalPoints()`. -/
def emptyProx : ProxState := ⟨[], ⊤⟩

/-- `ProximalPoints.add_point` (`src/article.js` lines 734–741), in the
squared-distance model: the candidate's distance to
`(pointer.x, height - pointer.y)` is compared against the threshold; within
it, the tuple is recorded and the role minimum updated. -/
def addPoint (height threshold : ℚ) (pointer : ℚ × ℚ) (p : ℚ × ℚ)
    (value : CorrTuple) (st : ProxState) : ProxState :=
  let dist2 := (p.1 - pointer.1) ^ 2 + (p.2 - (height - pointer.2)) ^ 2
  if dist2 ≤ threshold ^ 2 then
    { points := st.points ++ [value], distance := min st.distance (dist2 : WithTop ℚ) }
  else st

/-- The role-population loop (`src/article.js` lines 769–775) at the fixed
threshold (the expansion loop `threshold ≤ THRESHOLD * EXPAND` runs exactly
once since `EXPAND = 1`): feed each tuple's four role points into the four
accumulators, in the fixed role order reflection, figure, mirror-near-figure,
mirror-near-reflection. -/
def proxSearch (height threshold : ℚ) (pointer : ℚ × ℚ) (pts : List CorrTuple) :
    ProxState × ProxState × ProxState × ProxState :=
  pts.foldl
    (fun acc t =>
      (addPoint height threshold pointer t.r t acc.1,
       addPoint height threshold pointer t.f t acc.2.1,
       addPoint height threshold pointer t.mf t acc.2.2.1,
       addPoint height threshold pointer t.mr t acc.2.2.2))
    (emptyProx, emptyProx, emptyProx, emptyProx)

/-- `prox.reduce((prev, cur) => prev.distance <= cur.distance ? prev : cur)`
(`src/article.js` lines 777–779): JavaScript `reduce` without an initial
value uses the first element as the accumulator, so this is a left fold that
keeps the earlier role on ties. -/
def reduceClosest (first : ProxState) (rest : List ProxState) : ProxState :=
  rest.foldl (fun prev cur => if prev.distance ≤ cur.distance then prev else cur) first

/-- The reflection-image role accumulator (`reflection_prox`). -/
def proxReflection (height threshold : ℚ) (pointer : ℚ × ℚ) (pts : List CorrTuple) :
    ProxState :=
  (proxSearch height threshold pointer pts).1

/-- The figure-source role accumulator (`figure_prox`). -/
def proxFigure (height threshold : ℚ) (pointer : ℚ × ℚ) (pts : List CorrTuple) :
    ProxState :=
  (proxSearch height threshold pointer pts).2.1

/-- The mirror-near-figure role accumulator (`mirror_figure_prox`). -/
def proxMirrorFigure (height threshold : ℚ) (pointer : ℚ × ℚ) (pts : List CorrTuple) :
    ProxState :=
  (proxSearch height threshold pointer pts).2.2.1

/-- The mirror-near-reflection role accumulator (`mirror_reflection_prox`). -/
def proxMirrorReflection (height threshold : ℚ) (pointer : ℚ × ℚ) (pts : List CorrTuple) :
    ProxState :=
  (proxSearch height threshold pointer pts).2.2.2

/-- The outcome of one compute request: the backend JSON either parses into a
dataset (`resolve(data)`) or fails (`reject`), decided synchronously inside
the `NonaffineReflection` constructor (`src/lib.js` lines 753–772). -/
inductive ComputeResult (α : Type) where
  | ok (data : α)
  | err
deriving DecidableEq

/-- The visible surface: `blank` after `canvas.clear()` with nothing plotted,
or the last dataset plotted onto it. -/
inductive CanvasContent (α : Type) where
  | blank
  | frame (data : α)
deriving DecidableEq

/-- A pending `requestAnimationFrame(() => draw_equations(...))` callback:
the recompute path (`src/article.js` line 945) captures the specific request
`r`, while the redraw path (line 951) reads the controller's mutable
`reflection` variable at frame time. -/
inductive DrawTask (α : Type) where
  | fixed (res : ComputeResult α)
  | current
deriving DecidableEq

/-- The controller state for the compute/draw loop (`src/article.js`
lines 845–953): the latest issued request (`reflection`), the queued draw
callbacks, and the canvas content. -/
structure CState (α : Type) where
  reflection : Option (ComputeResult α)
  drawQueue : List (DrawTask α)
  canvas : CanvasContent α
deriving DecidableEq

/-- The controller's input events. `edit` is any control change that calls
`render(true)` (its argument is the synchronously produced compute result);
`redraw` is any `render(false)` call (pan, zoom, reset); `frame` is the host
running the queued animation-frame callbacks. -/
inductive Event (α : Type) where
  | edit (res : ComputeResult α)
  | redraw
  | frame
deriving DecidableEq

/-- Whether an event is an equation/slider/settings edit. -/
def isEditEvent {α : Type} : Event α → Bool
  | .edit _ => true
  | _ => false

/-- The request a queued draw callback will draw: a captured request itself,
or the controller's current `reflection` for a redraw callback. -/
def taskTarget {α : Type} (refl : Option (ComputeResult α)) : DrawTask α → Option (ComputeResult α)
  | .fixed r => some r
  | .current => refl

/-- `draw_equations` (`src/article.js` lines 850–882): clear the canvas, then
plot the reflection if there is one.  `plot` awaits `this.data`, so a
rejected request plots nothing and the canvas stays cleared; a null
reflection likewise leaves the cleared canvas.  Each draw is modelled as
completing (clear plus plot) before the next queued draw runs. -/
def drawEquations {α : Type} : Option (ComputeResult α) → CanvasContent α
  | some (.ok d) => .frame d
  | some .err => .blank
  | none => .blank

/-- Run the queued draw callbacks of one animation frame in FIFO order. -/
def processQueue {α : Type} (refl : Option (ComputeResult α)) :
    CanvasContent α → List (DrawTask α) → CanvasContent α
  | c, [] => c
  | _, t :: rest => processQueue refl (drawEquations (taskTarget refl t)) rest

/-- The successive canvas contents produced while a frame's queued draws run. -/
def canvasTrace {α : Type} (refl : Option (ComputeResult α)) :
    List (DrawTask α) → List (CanvasContent α)
  | [] => []
  | t :: rest => drawEquations (taskTarget refl t) :: canvasTrace refl rest

/-- One controller step (`render` at `src/article.js` lines 845–953 plus the
host's frame callback).  On `edit`, the new request is constructed and its
promise settles synchronously; `r.data.then(...)` schedules a draw of the
captured request only on success, and `reflection = r` always runs.  On
`redraw`, a draw of the current-at-frame-time reflection is scheduled.  On
`frame`, the queued draws run in order. -/
def step {α : Type} (s : CState α) : Event α → CState α
  | .edit res =>
    { reflection := some res,
      drawQueue := s.drawQueue ++ (match res with
        | .ok _ => [.fixed res]
        | .err => []),
      canvas := s.canvas }
  | .redraw => { s with drawQueue := s.drawQueue ++ [.current] }
  | .frame =>
    { s with drawQueue := [],
             canvas := processQueue s.reflection s.canvas s.drawQueue }

/-- Run a sequence of controller events. -/
def run {α : Type} (s : CState α) : List (Event α) → CState α
  | [] => s
  | e :: rest => run (step s e) rest

/-- Sanity check that `logicalUnderPointer` inverts `adjustPoint` with the
vertical flip of the pointer's y coordinate. -/
theorem adjustPoint_logicalUnderPointer (v : View) (p : ℝ × ℝ) :
    adjustPoint v (logicalUnderPointer v p) = (p.1, v.height - p.2) := by
  have h : pow2 (-v.scale) * pow2 v.scale = 1 := by
    unfold pow2
    rw [← Real.rpow_add (by norm_num : (0 : ℝ) < 2)]
    simp
  unfold adjustPoint logicalUnderPointer
  refine Prod.ext ?_ ?_ <;> simp only
  · linear_combination (p.1 - v.width / 2) * h
  · linear_combination (-(p.2 - v.height / 2)) * h

/-- Claim C4: for every view, pointer surface position and scroll delta, the
wheel-zoom update (origin shifted by the pointer's offset from centre times
`2^-oldScale - 2^-newScale`, then the new scale installed) leaves the logical
point under the pointer unchanged; the identity is exact in the real-number
model, hence within any floating-point tolerance. -/
theorem c4_zoom_about_pointer_fixpoint (v : View) (pointer : ℝ × ℝ) (deltaY : ℝ) :
    logicalUnderPointer (wheelZoom v pointer deltaY) pointer =
      logicalUnderPointer v pointer := by
  unfold logicalUnderPointer wheelZoom
  refine Prod.ext ?_ ?_ <;> simp only <;> ring

/-- Claim C5 (evaluation at the failing input): `Equation.variables` matches
`/\b[a-z]\b/`, ASCII lowercase only, so `freeVariables("t + (x/10)^2 - σ")`
with `t` and `s` reserved yields exactly `{x}` — the Greek letter `σ` is
never extracted, contrary to the claimed `{x, σ}`. -/
theorem c5_extraction_ascii_only :
    freeVariablesOf ("t + (x/10)^2 - σ".toList) = ['x'] ∧
    'σ' ∉ freeVariablesOf ("t + (x/10)^2 - σ".toList) ∧
    variablesOf ("t + (x/10)^2 - σ".toList) = ['t', 'x'] := by
  decide

/-- Claim C6 (evaluation at the failing input): when the scaling variable `σ`
first becomes free with no prior binding, the created default is
`Binding(-1, -2, 2, -1)` — value `-1` and range `[-2, 2]` as claimed, but the
`step` argument is `-1`, not a small positive step, so `step > 0` fails;
generic variables do get `Binding(0, -256, 256, 1)` as claimed. -/
theorem c6_scaling_default_step_not_positive :
    lookupKey (ensureBinding [] 'σ') 'σ' = some ⟨-1, -2, 2, -1⟩ ∧
    (defaultBindingFor 'σ').value = -1 ∧
    (defaultBindingFor 'σ').min = -2 ∧
    (defaultBindingFor 'σ').max = 2 ∧
    ¬ 0 < (defaultBindingFor 'σ').step ∧
    defaultBindingFor 'x' = ⟨0, -256, 256, 1⟩ ∧
    0 < (defaultBindingFor 'x').step := by
  decide

/-- Claim C9: every value written through the slider input path is clamped
into the binding's `[min, max]` range (the clamp is the range input element's
value sanitization, modelled by `rangeInputValue`), and the write leaves
`min`, `max` and `step` untouched, so `min ≤ value ≤ max` still holds. -/
theorem c9_slider_set_clamps (b : Binding) (raw : ℚ) (h : b.min ≤ b.max) :
    b.min ≤ (sliderInput b raw).value ∧ (sliderInput b raw).value ≤ b.max ∧
    (sliderInput b raw).min = b.min ∧ (sliderInput b raw).max = b.max ∧
    (sliderInput b raw).step = b.step := by
  refine ⟨?_, ?_, rfl, rfl, rfl⟩
  · exact le_max_left _ _
  · exact max_le h (min_le_left _ _)

/-- Witness for C9 at a concrete binding and an out-of-range raw value. -/
theorem c9_witness :
    (Binding.mk 0 (-256) 256 1).min ≤
      (sliderInput (Binding.mk 0 (-256) 256 1) 1000).value ∧
    (sliderInput (Binding.mk 0 (-256) 256 1) 1000).value ≤
      (Binding.mk 0 (-256) 256 1).max ∧
    (sliderInput (Binding.mk 0 (-256) 256 1) 1000).min =
      (Binding.mk 0 (-256) 256 1).min ∧
    (sliderInput (Binding.mk 0 (-256) 256 1) 1000).max =
      (Binding.mk 0 (-256) 256 1).max ∧
    (sliderInput (Binding.mk 0 (-256) 256 1) 1000).step =
      (Binding.mk 0 (-256) 256 1).step :=
  c9_slider_set_clamps (Binding.mk 0 (-256) 256 1) 1000 (by norm_num)

/-- `Math.round(q) ≥ 1` whenever `q > 1`. -/
theorem one_le_jsRound (q : ℚ) (h : 1 < q) : 1 ≤ jsRound q := by
  unfold jsRound
  have h2 : (1 : ℤ) ≤ ⌊q + 1/2⌋ := by
    rw [Int.le_floor]
    push_cast
    linarith
  exact_mod_cast h2

/-- The derived step is positive whenever the repaired span is positive. -/
theorem stepFromSpan_pos {mn mx : ℚ} (h : mn < mx) : 0 < stepFromSpan mn mx := by
  unfold stepFromSpan
  split_ifs with hd
  · have h1 : (1 : ℚ) ≤ jsRound ((mx - mn) / 100) := one_le_jsRound _ hd
    linarith
  · linarith

/-- The repaired range is always ordered. -/
theorem repairedMin_le_repairedMax (min0 max0 : Option ℚ) :
    repairedMin min0 max0 ≤ repairedMax min0 max0 := by
  unfold repairedMin repairedMax rawMid
  split_ifs with h
  · exact le_refl _
  · exact le_of_not_lt h

/-- The partial-repair branch always yields `min ≤ value ≤ max`, and a
positive step whenever the repaired range is non-degenerate. -/
theorem decodeBindingCore_invariant (value0 min0 max0 step0 : Option ℚ) :
    (decodeBindingCore value0 min0 max0 step0).min ≤
      (decodeBindingCore value0 min0 max0 step0).value ∧
    (decodeBindingCore value0 min0 max0 step0).value ≤
      (decodeBindingCore value0 min0 max0 step0).max ∧
    ((decodeBindingCore value0 min0 max0 step0).min <
        (decodeBindingCore value0 min0 max0 step0).max →
      0 < (decodeBindingCore value0 min0 max0 step0).step) := by
  refine ⟨le_max_left _ _,
    max_le (repairedMin_le_repairedMax min0 max0) (min_le_left _ _),
    fun hlt => ?_⟩
  have hlt' : repairedMin min0 max0 < repairedMax min0 max0 := hlt
  show 0 < decodeStep step0 min0 max0
  unfold decodeStep
  rcases step0 with _ | s
  · exact lt_min (by linarith) (stepFromSpan_pos hlt')
  · dsimp only
    split_ifs with hs
    · exact lt_min (by linarith) (stepFromSpan_pos hlt')
    · exact lt_min (by linarith) (by linarith)

/-- Counterexample to claim C3: the entry `{value:"1", min:"5", max:"abc",
step:"2"}` decodes to `Binding(5, 5, 5, 0)` — the missing `max` is copied
from `min`, collapsing the span to zero, and the final
`step = Math.min((max-min)/2, step)` line forces `step = 0`, so the decoded
Binding does not satisfy `step > 0`. -/
theorem c3_counterexample :
    decodeBinding (some 1) (some 5) none (some 2) = ⟨5, 5, 5, 0⟩ ∧
    ¬ 0 < (decodeBinding (some 1) (some 5) none (some 2)).step := by
  have h : decodeBinding (some 1) (some 5) none (some 2) = ⟨5, 5, 5, 0⟩ := by
    unfold decodeBinding decodeBindingCore decodeValue decodeStep repairedMin
      repairedMax rawMid rawMin rawMax stepFromSpan jsRound
    norm_num
  exact ⟨h, by rw [h]; norm_num⟩

/-- Claim C3 as amended: the decode is total; an all-unparseable entry yields
exactly `(0, -256, 256, 1)`; the claim's instance `{value:"abc", min:"-5",
max:"5", step:"abc"}` yields `(0, -5, 5, 1/10)` satisfying the invariant; and
in general the decoded Binding satisfies `min ≤ value ≤ max` always, and
`step > 0` whenever the repaired range is non-degenerate (`min < max`) — when
the repaired range collapses to a single point (only one of `min`/`max`
parseable, or `min > max`), the final `Math.min((max-min)/2, step)` forces
`step = 0`. -/
theorem c3_decode_total_valid (value0 min0 max0 step0 : Option ℚ) :
    (decodeBinding value0 min0 max0 step0).min ≤
      (decodeBinding value0 min0 max0 step0).value ∧
    (decodeBinding value0 min0 max0 step0).value ≤
      (decodeBinding value0 min0 max0 step0).max ∧
    ((decodeBinding value0 min0 max0 step0).min <
        (decodeBinding value0 min0 max0 step0).max →
      0 < (decodeBinding value0 min0 max0 step0).step) ∧
    decodeBinding none none none none = ⟨0, -256, 256, 1⟩ ∧
    decodeBinding none (some (-5)) (some 5) none = ⟨0, -5, 5, 1/10⟩ := by
  have hdef : decodeBinding none none none none = ⟨0, -256, 256, 1⟩ := by
    unfold decodeBinding
    norm_num
  have hinst : decodeBinding none (some (-5)) (some 5) none = ⟨0, -5, 5, 1/10⟩ := by
    unfold decodeBinding decodeBindingCore decodeValue decodeStep repairedMin
      repairedMax rawMid rawMin rawMax stepFromSpan jsRound
    norm_num
  refine ⟨?_, ?_, ?_, hdef, hinst⟩ <;>
    · unfold decodeBinding
      split_ifs
      · norm_num
      · first
        | exact (decodeBindingCore_invariant value0 min0 max0 step0).1
        | exact (decodeBindingCore_invariant value0 min0 max0 step0).2.1
        | exact (decodeBindingCore_invariant value0 min0 max0 step0).2.2

/-- Witness for C3 at the claim's own instance `{value:"abc", min:"-5",
max:"5", step:"abc"}`. -/
theorem c3_witness :
    (decodeBinding none (some (-5)) (some 5) none).min ≤
      (decodeBinding none (some (-5)) (some 5) none).value ∧
    (decodeBinding none (some (-5)) (some 5) none).value ≤
      (decodeBinding none (some (-5)) (some 5) none).max ∧
    ((decodeBinding none (some (-5)) (some 5) none).min <
        (decodeBinding none (some (-5)) (some 5) none).max →
      0 < (decodeBinding none (some (-5)) (some 5) none).step) ∧
    decodeBinding none none none none = ⟨0, -256, 256, 1⟩ ∧
    decodeBinding none (some (-5)) (some 5) none = ⟨0, -5, 5, 1/10⟩ :=
  c3_decode_total_valid none (some (-5)) (some 5) none

/-- `l.all Option.isSome` and `!(l.any Option.isNone)` agree. -/
theorem all_isSome_eq_not_any_isNone {α : Type} (l : List (Option α)) :
    l.all Option.isSome = !(l.any Option.isNone) := by
  induction l with
  | nil => rfl
  | cons o rest ih => cases o <;> simp [ih]

/-- The keep-earlier-on-ties fold over the four role accumulators returns the
first role attaining the global minimum distance. -/
theorem reduceClosest_four (r0 r1 r2 r3 : ProxState) :
    (reduceClosest r0 [r1, r2, r3]).distance =
      min (min (min r0.distance r1.distance) r2.distance) r3.distance ∧
    reduceClosest r0 [r1, r2, r3] =
      (if r0.distance =
          min (min (min r0.distance r1.distance) r2.distance) r3.distance then r0
       else if r1.distance =
          min (min (min r0.distance r1.distance) r2.distance) r3.distance then r1
       else if r2.distance =
          min (min (min r0.distance r1.distance) r2.distance) r3.distance then r2
       else r3) := by
  unfold reduceClosest
  simp only [List.foldl]
  rcases le_or_lt r0.distance r1.distance with h01 | h01
  · rw [if_pos h01]
    rcases le_or_lt r0.distance r2.distance with h02 | h02
    · rw [if_pos h02]
      rcases le_or_lt r0.distance r3.distance with h03 | h03
      · rw [if_pos h03]
        have hm : min (min (min r0.distance r1.distance) r2.distance) r3.distance
            = r0.distance := by
          rw [min_eq_left h01, min_eq_left h02, min_eq_left h03]
        rw [hm]
        exact ⟨rfl, by rw [if_pos rfl]⟩
      · rw [if_neg (not_le.mpr h03)]
        have hm : min (min (min r0.distance r1.distance) r2.distance) r3.distance
            = r3.distance := by
          rw [min_eq_left h01, min_eq_left h02, min_eq_right (le_of_lt h03)]
        rw [hm]
        refine ⟨rfl, ?_⟩
        rw [if_neg (ne_of_gt h03), if_neg (ne_of_gt (lt_of_lt_of_le h03 h01)),
          if_neg (ne_of_gt (lt_of_lt_of_le h03 h02))]
    · rw [if_neg (not_le.mpr h02)]
      rcases le_or_lt r2.distance r3.distance with h23 | h23
      · rw [if_pos h23]
        have hm : min (min (min r0.distance r1.distance) r2.distance) r3.distance
            = r2.distance := by
          rw [min_eq_left h01, min_eq_right (le_of_lt h02), min_eq_left h23]
        rw [hm]
        refine ⟨rfl, ?_⟩
        rw [if_neg (ne_of_gt h02), if_neg (ne_of_gt (lt_of_lt_of_le h02 h01)),
          if_pos rfl]
      · rw [if_neg (not_le.mpr h23)]
        have hm : min (min (min r0.distance r1.distance) r2.distance) r3.distance
            = r3.distance := by
          rw [min_eq_left h01, min_eq_right (le_of_lt h02),
            min_eq_right (le_of_lt h23)]
        rw [hm]
        refine ⟨rfl, ?_⟩
        rw [if_neg (ne_of_gt (lt_trans h23 h02)),
          if_neg (ne_of_gt (lt_of_lt_of_le (lt_trans h23 h02) h01)),
          if_neg (ne_of_gt h23)]
  · rw [if_neg (not_le.mpr h01)]
    rcases le_or_lt r1.distance r2.distance with h12 | h12
    · rw [if_pos h12]
      rcases le_or_lt r1.distance r3.distance with h13 | h13
      · rw [if_pos h13]
        have hm : min (min (min r0.distance r1.distance) r2.distance) r3.distance
            = r1.distance := by
          rw [min_eq_right (le_of_lt h01), min_eq_left h12, min_eq_left h13]
        rw [hm]
        refine ⟨rfl, ?_⟩
        rw [if_neg (ne_of_gt h01), if_pos rfl]
      · rw [if_neg (not_le.mpr h13)]
        have hm : min (min (min r0.distance r1.distance) r2.distance) r3.distance
            = r3.distance := by
          rw [min_eq_right (le_of_lt h01), min_eq_left h12,
            min_eq_right (le_of_lt h13)]
        rw [hm]
        refine ⟨rfl, ?_⟩
        rw [if_neg (ne_of_gt (lt_trans h13 h01)), if_neg (ne_of_gt h13),
          if_neg (ne_of_gt (lt_of_lt_of_le h13 h12))]
    · rw [if_neg (not_le.mpr h12)]
      rcases le_or_lt r2.distance r3.distance with h23 | h23
      · rw [if_pos h23]
        have hm : min (min (min r0.distance r1.distance) r2.distance) r3.distance
            = r2.distance := by
          rw [min_eq_right (le_of_lt h01), min_eq_right (le_of_lt h12),
            min_eq_left h23]
        rw [hm]
        refine ⟨rfl, ?_⟩
        rw [if_neg (ne_of_gt (lt_trans h12 h01)), if_neg (ne_of_gt h12),
          if_pos rfl]
      · rw [if_neg (not_le.mpr h23)]
        have hm : min (min (min r0.distance r1.distance) r2.distance) r3.distance
            = r3.distance := by
          rw [min_eq_right (le_of_lt h01), min_eq_right (le_of_lt h12),
            min_eq_right (le_of_lt h23)]
        rw [hm]
        refine ⟨rfl, ?_⟩
        rw [if_neg (ne_of_gt (lt_trans (lt_trans h23 h12) h01)),
          if_neg (ne_of_gt (lt_trans h23 h12)), if_neg (ne_of_gt h23)]

/-- Claim C7: for every pointer, threshold, surface height and tuple list,
the role selection `prox.reduce(...)` over the four role accumulators — in
the fixed source order reflection-image, figure-source, mirror-near-figure,
mirror-near-reflection — returns the role whose minimum distance to the
pointer is globally smallest, and on ties the role occurring first in that
order.  The selection is a pure function of the current pointer position and
data, independent of pointer history. -/
theorem c7_prox_role_selection (height threshold : ℚ) (pointer : ℚ × ℚ)
    (pts : List CorrTuple) :
    (reduceClosest (proxReflection height threshold pointer pts)
        [proxFigure height threshold pointer pts,
         proxMirrorFigure height threshold pointer pts,
         proxMirrorReflection height threshold pointer pts]).distance =
      min (min (min (proxReflection height threshold pointer pts).distance
            (proxFigure height threshold pointer pts).distance)
          (proxMirrorFigure height threshold pointer pts).distance)
        (proxMirrorReflection height threshold pointer pts).distance ∧
    reduceClosest (proxReflection height threshold pointer pts)
        [proxFigure height threshold pointer pts,
         proxMirrorFigure height threshold pointer pts,
         proxMirrorReflection height threshold pointer pts] =
      (if (proxReflection height threshold pointer pts).distance =
          min (min (min (proxReflection height threshold pointer pts).distance
                (proxFigure height threshold pointer pts).distance)
              (proxMirrorFigure height threshold pointer pts).distance)
            (proxMirrorReflection height threshold pointer pts).distance then
        proxReflection height threshold pointer pts
       else if (proxFigure height threshold pointer pts).distance =
          min (min (min (proxReflection height threshold pointer pts).distance
                (proxFigure height threshold pointer pts).distance)
              (proxMirrorFigure height threshold pointer pts).distance)
            (proxMirrorReflection height threshold pointer pts).distance then
        proxFigure height threshold pointer pts
       else if (proxMirrorFigure height threshold pointer pts).distance =
          min (min (min (proxReflection height threshold pointer pts).distance
                (proxFigure height threshold pointer pts).distance)
              (proxMirrorFigure height threshold pointer pts).distance)
            (proxMirrorReflection height threshold pointer pts).distance then
        proxMirrorFigure height threshold pointer pts
       else proxMirrorReflection height threshold pointer pts) :=
  reduceClosest_four _ _ _ _

/-- Counterexample to claim C8: a correspondence tuple whose mirror
components are the `null` sentinel is dropped wholesale — its known
reflection and figure points contribute no candidate either — so the
exclusion does not apply exactly to the unknown components. -/
theorem c8_counterexample :
    filterKnownTuples ⟨(0, 0), 640, 480, 0⟩
        [[some (1, 2), some (3, 4), none, none]] = [] ∧
    ([some ((1 : ℝ), (2 : ℝ)), some ((3 : ℝ), (4 : ℝ)), none, none]
        : List (Option (ℝ × ℝ))).any Option.isNone = true := by
  constructor
  · unfold filterKnownTuples
    simp
  · simp

/-- Claim C8 as amended: unknown (`null`) components never reach the
proximity search and are never read as the coordinate `(0, 0)` — every
surviving candidate tuple is the view-adjusted image of a fully-known source
tuple, and every fully-known tuple survives — but the exclusion is
per-tuple, not per-component: a tuple containing any unknown component is
dropped wholesale, so its known components are excluded too. -/
theorem c8_sentinel_exclusion (v : View) (pts : List (List (Option (ℝ × ℝ)))) :
    (∀ tup ∈ filterKnownTuples v pts,
      ∃ src, src ∈ pts ∧ src.all Option.isSome = true ∧
        tup = src.filterMap (fun o => o.map (adjustPoint v))) ∧
    (∀ src ∈ pts, src.all Option.isSome = true →
      src.filterMap (fun o => o.map (adjustPoint v)) ∈ filterKnownTuples v pts) := by
  constructor
  · intro tup htup
    unfold filterKnownTuples at htup
    rcases List.mem_map.mp htup with ⟨src, hsrc, rfl⟩
    rcases List.mem_filter.mp hsrc with ⟨hmem, hknown⟩
    refine ⟨src, hmem, ?_, rfl⟩
    rw [all_isSome_eq_not_any_isNone]
    exact hknown
  · intro src hmem hall
    unfold filterKnownTuples
    apply List.mem_map.mpr
    refine ⟨src, List.mem_filter.mpr ⟨hmem, ?_⟩, rfl⟩
    rw [← all_isSome_eq_not_any_isNone]
    exact hall

/-- Witness for C8: a fully-known tuple's adjusted image is among the
proximity candidates. -/
theorem c8_witness :
    ([some ((5 : ℝ), (6 : ℝ)), some ((7 : ℝ), (8 : ℝ)), some ((1 : ℝ), (1 : ℝ)),
        some ((2 : ℝ), (2 : ℝ))] : List (Option (ℝ × ℝ))).filterMap
        (fun o => o.map (adjustPoint ⟨(0, 0), 640, 480, 0⟩)) ∈
      filterKnownTuples ⟨(0, 0), 640, 480, 0⟩
        [[some (5, 6), some (7, 8), some (1, 1), some (2, 2)]] :=
  (c8_sentinel_exclusion ⟨(0, 0), 640, 480, 0⟩
      [[some (5, 6), some (7, 8), some (1, 1), some (2, 2)]]).2
    [some (5, 6), some (7, 8), some (1, 1), some (2, 2)]
    (List.mem_singleton.mpr rfl) rfl

/-- `Map.set` leaves every other key's entry unchanged and installs the new
entry at the written key. -/
theorem lookupKey_setKey {α : Type} (l : List (Char × α)) (k k' : Char) (a : α) :
    lookupKey (setKey l k a) k' = if k = k' then some a else lookupKey l k' := by
  induction l with
  | nil => simp [setKey, lookupKey]
  | cons p rest ih =>
    obtain ⟨k0, a0⟩ := p
    simp only [setKey]
    by_cases h0 : k0 = k <;> by_cases h1 : k = k' <;>
      by_cases h2 : k0 = k' <;>
        simp_all [lookupKey, setKey]

/-- One `extract_variables` loop iteration never loses an existing binding. -/
theorem extractStep_preserves_binding (vars : List Char) (ui : UIState) (v k : Char)
    (b : Binding) (h : lookupKey ui.bindings k = some b) :
    lookupKey (extractStep vars ui v).bindings k = some b := by
  unfold extractStep ensureBinding
  split_ifs with h1 h2 h3
  · exact h
  · exact h
  · rw [lookupKey_setKey]
    split_ifs with hv
    · subst hv
      rw [h] at h3
      simp at h3
    · exact h
  · exact h

/-- One `extract_variables` loop iteration never loses a slider-map key. -/
theorem extractStep_preserves_varMap (vars : List Char) (ui : UIState) (v k : Char)
    (h : (lookupKey ui.varMap k).isSome = true) :
    (lookupKey (extractStep vars ui v).varMap k).isSome = true := by
  unfold extractStep
  split_ifs with h1 h2 <;>
    · simp only
      rw [lookupKey_setKey]
      split_ifs with hv
      · rfl
      · exact h

/-- `extract_variables` never loses an existing binding (its value included). -/
theorem extractVariables_preserves_binding (ui : UIState) (vars : List Char) (k : Char)
    (b : Binding) (h : lookupKey ui.bindings k = some b) :
    lookupKey (extractVariables ui vars).bindings k = some b := by
  unfold extractVariables
  generalize (ui.varMap.map Prod.fst ++ vars).dedup = l
  induction l generalizing ui with
  | nil => exact h
  | cons v rest ih =>
    exact ih (extractStep vars ui v) (extractStep_preserves_binding vars ui v k b h)

/-- `extract_variables` never loses a slider-map key. -/
theorem extractVariables_preserves_varMap (ui : UIState) (vars : List Char) (k : Char)
    (h : (lookupKey ui.varMap k).isSome = true) :
    (lookupKey (extractVariables ui vars).varMap k).isSome = true := by
  unfold extractVariables
  generalize (ui.varMap.map Prod.fst ++ vars).dedup = l
  induction l generalizing ui with
  | nil => exact h
  | cons v rest ih =>
    exact ih (extractStep vars ui v) (extractStep_preserves_varMap vars ui v k h)

/-- The slider write never loses a binding-store key. -/
theorem sliderSet_preserves_key (st : List (Char × Binding)) (v k : Char) (raw : ℚ)
    (h : (lookupKey st k).isSome = true) :
    (lookupKey (sliderSet st v raw) k).isSome = true := by
  induction st with
  | nil => simpa [sliderSet] using h
  | cons p rest ih =>
    obtain ⟨k0, b0⟩ := p
    simp only [sliderSet]
    by_cases h0 : k0 = v <;> by_cases h1 : k0 = k <;>
      simp_all [lookupKey, sliderSet]

/-- Claim C10: the binding store and the slider map are append-only within a
session — `extract_variables` (run on every equation edit and recompute)
never removes a key and leaves every existing Binding untouched, value
included, even when its variable occurs in no equation (`vars` arbitrary,
only slider visibility changes), and the slider write path
never removes a key either. -/
theorem c10_store_append_only (ui : UIState) (vars : List Char)
    (st : List (Char × Binding)) (v k : Char) (raw : ℚ) (b : Binding) :
    (lookupKey ui.bindings k = some b →
      lookupKey (extractVariables ui vars).bindings k = some b) ∧
    ((lookupKey ui.varMap k).isSome = true →
      (lookupKey (extractVariables ui vars).varMap k).isSome = true) ∧
    ((lookupKey st k).isSome = true →
      (lookupKey (sliderSet st v raw) k).isSome = true) :=
  ⟨extractVariables_preserves_binding ui vars k b,
   extractVariables_preserves_varMap ui vars k,
   sliderSet_preserves_key st v k raw⟩

/-- Witness for C10: the binding of `x` persists, with its value, through an
`extract_variables` run in which `x` is free in no equation. -/
theorem c10_witness :
    lookupKey
      (extractVariables ⟨[('x', ⟨1, -2, 2, 1⟩)], [('x', true)]⟩ ['y']).bindings
      'x' = some ⟨1, -2, 2, 1⟩ :=
  (c10_store_append_only ⟨[('x', ⟨1, -2, 2, 1⟩)], [('x', true)]⟩ ['y']
      [] 'x' 'x' 0 ⟨1, -2, 2, 1⟩).1 rfl

/-- Running a frame whose queue ends in task `t` leaves the canvas showing
exactly what drawing `t` produces: each queued draw clears the canvas before
plotting, so the last queued draw wins. -/
theorem processQueue_concat {α : Type} (refl : Option (ComputeResult α))
    (c : CanvasContent α) (q : List (DrawTask α)) (t : DrawTask α) :
    processQueue refl c (q ++ [t]) = drawEquations (taskTarget refl t) := by
  induction q generalizing c with
  | nil => rfl
  | cons t0 rest ih => exact ih (drawEquations (taskTarget refl t0))

/-- A frame whose queued draws all target the dataset `b` leaves a canvas
already showing `b` unchanged. -/
theorem processQueue_const {α : Type} (refl : Option (ComputeResult α)) (b : α)
    (q : List (DrawTask α)) (hq : ∀ t ∈ q, taskTarget refl t = some (.ok b)) :
    processQueue refl (.frame b) q = .frame b := by
  induction q with
  | nil => rfl
  | cons t0 rest ih =>
    have h0 : taskTarget refl t0 = some (.ok b) := hq t0 (List.mem_cons_self t0 rest)
    show processQueue refl (drawEquations (taskTarget refl t0)) rest = _
    rw [h0]
    exact ih fun t ht => hq t (List.mem_cons_of_mem t0 ht)

/-- A non-edit controller step preserves "the canvas shows `b`, the stored
reflection is `b`'s request, and every queued draw targets `b`". -/
theorem step_nonedit_preserves {α : Type} (b : α) (s : CState α) (e : Event α)
    (he : isEditEvent e = false)
    (hc : s.canvas = .frame b) (hr : s.reflection = some (.ok b))
    (hq : ∀ t ∈ s.drawQueue, taskTarget s.reflection t = some (.ok b)) :
    (step s e).canvas = .frame b ∧ (step s e).reflection = some (.ok b) ∧
    ∀ t ∈ (step s e).drawQueue, taskTarget (step s e).reflection t = some (.ok b) := by
  cases e with
  | edit res => simp [isEditEvent] at he
  | redraw =>
    refine ⟨hc, hr, ?_⟩
    intro t ht
    simp only [step] at ht ⊢
    rcases List.mem_append.mp ht with hmem | hmem
    · exact hq t hmem
    · rw [List.mem_singleton.mp hmem]
      exact hr
  | frame =>
    refine ⟨?_, hr, by simp [step]⟩
    show processQueue s.reflection s.canvas s.drawQueue = .frame b
    rw [hc]
    exact processQueue_const s.reflection b s.drawQueue hq

/-- A run of non-edit events preserves the same invariant. -/
theorem run_nonedit_preserves {α : Type} (b : α) (s : CState α) (evs : List (Event α))
    (he : ∀ e ∈ evs, isEditEvent e = false)
    (hc : s.canvas = .frame b) (hr : s.reflection = some (.ok b))
    (hq : ∀ t ∈ s.drawQueue, taskTarget s.reflection t = some (.ok b)) :
    (run s evs).canvas = .frame b ∧ (run s evs).reflection = some (.ok b) := by
  induction evs generalizing s with
  | nil => exact ⟨hc, hr⟩
  | cons e rest ih =>
    obtain ⟨hc', hr', hq'⟩ :=
      step_nonedit_preserves b s e (he e (List.mem_cons_self e rest)) hc hr hq
    exact ih (step s e) (fun e' h' => he e' (List.mem_cons_of_mem e h')) hc' hr' hq'

/-- Counterexample to claim C1: after request A (`ok 1`) and request B
(`ok 2`) are both issued before a frame runs, the frame's draw sequence is
`[frame 1, frame 2]` — the superseded request A is not discarded on arrival
(there is no per-request staleness tag in the code); its dataset is drawn to
the display after B was already the latest issued request, and only the draw
order makes B's dataset the one that remains. -/
theorem c1_counterexample :
    canvasTrace
        (run (⟨none, [], .blank⟩ : CState ℕ) [.edit (.ok 1), .edit (.ok 2)]).reflection
        (run (⟨none, [], .blank⟩ : CState ℕ) [.edit (.ok 1), .edit (.ok 2)]).drawQueue
      = [.frame 1, .frame 2] ∧
    CanvasContent.frame 1 ∈
      canvasTrace
        (run (⟨none, [], .blank⟩ : CState ℕ) [.edit (.ok 1), .edit (.ok 2)]).reflection
        (run (⟨none, [], .blank⟩ : CState ℕ) [.edit (.ok 1), .edit (.ok 2)]).drawQueue := by
  exact ⟨rfl, by decide⟩

/-- Claim C1 as amended: compute resolves synchronously at issue time, so
results never arrive out of order and the code needs (and has) no staleness
tag; the controller instead overwrites its single `reflection` reference with
each newly issued request, and queued draws run in issue order.  Hence after
edits producing A then B and the following frame — and then any further
pan/zoom/reset redraws and frames — the displayed dataset and the stored
reflection used for redraws are B's, never A's. -/
theorem c1_last_request_wins {α : Type} (s : CState α) (a b : α)
    (evs : List (Event α)) (h : ∀ e ∈ evs, isEditEvent e = false) :
    (run (run s [.edit (.ok a), .edit (.ok b), .frame]) evs).canvas = .frame b ∧
    (run (run s [.edit (.ok a), .edit (.ok b), .frame]) evs).reflection
      = some (.ok b) := by
  have hfr : (run s [.edit (.ok a), .edit (.ok b), .frame]).canvas = .frame b ∧
      (run s [.edit (.ok a), .edit (.ok b), .frame]).reflection = some (.ok b) ∧
      (run s [.edit (.ok a), .edit (.ok b), .frame]).drawQueue = [] := by
    show ((step (step (step s (.edit (.ok a))) (.edit (.ok b))) .frame).canvas = _) ∧ _
    refine ⟨?_, rfl, rfl⟩
    show processQueue (some (.ok b)) s.canvas
        ((s.drawQueue ++ [.fixed (.ok a)]) ++ [.fixed (.ok b)]) = .frame b
    rw [processQueue_concat]
    rfl
  obtain ⟨hc, hr, hq⟩ := hfr
  exact run_nonedit_preserves b _ evs h hc hr (by rw [hq]; intro t ht; cases ht)

/-- Witness for C1: concrete two-edit race followed by a redraw and frames. -/
theorem c1_witness :
    (run (run (⟨none, [], .blank⟩ : CState ℕ) [.edit (.ok 1), .edit (.ok 2), .frame])
        [.redraw, .frame]).canvas = .frame 2 ∧
    (run (run (⟨none, [], .blank⟩ : CState ℕ) [.edit (.ok 1), .edit (.ok 2), .frame])
        [.redraw, .frame]).reflection = some (.ok 2) :=
  c1_last_request_wins (⟨none, [], .blank⟩ : CState ℕ) 1 2 [.redraw, .frame] (by decide)

/-- Counterexample to claim C2: after a successful frame showing dataset `7`,
a rejected compute leaves the frame intact at first, but the rejected request
has replaced the stored `reflection`, so the next pan/zoom redraw clears the
canvas and `plot` (whose awaited promise is rejected) draws nothing — the
previously drawn frame is not preserved across subsequent redraws. -/
theorem c2_counterexample :
    (run (⟨none, [], .blank⟩ : CState ℕ) [.edit (.ok 7), .frame]).canvas = .frame 7 ∧
    (run (⟨none, [], .blank⟩ : CState ℕ)
        [.edit (.ok 7), .frame, .edit .err, .redraw, .frame]).canvas = .blank ∧
    CanvasContent.blank ≠ CanvasContent.frame 7 := by
  exact ⟨rfl, rfl, by decide⟩

/-- Claim C2 as amended: on deserialization failure the compute promise
rejects, no draw is scheduled for it, and the controller does not touch the
visible surface at that point — the previously drawn frame stays intact and
the session continues (the step function is total).  But the rejected request
replaces the stored `reflection`, so the first subsequent pan/zoom redraw
clears the canvas and cannot replot: the surface goes blank instead of
retaining the last good frame. -/
theorem c2_rejection_keeps_frame_until_redraw {α : Type} (s : CState α) :
    (step s (.edit .err)).canvas = s.canvas ∧
    (step s (.edit .err)).drawQueue = s.drawQueue ∧
    (run s [.edit .err, .redraw, .frame]).canvas = .blank := by
  refine ⟨rfl, by simp [step], ?_⟩
  show (step (step (step s (.edit .err)) .redraw) .frame).canvas = .blank
  show processQueue (some .err) s.canvas ((s.drawQueue ++ []) ++ [.current]) = .blank
  rw [processQueue_concat]
  rfl

/-- Witness for C2 at a concrete state holding a previously drawn frame. -/
theorem c2_witness :
    (step (⟨some (.ok 7), [], .frame 7⟩ : CState ℕ) (.edit .err)).canvas
      = (⟨some (.ok 7), [], .frame 7⟩ : CState ℕ).canvas ∧
    (step (⟨some (.ok 7), [], .frame 7⟩ : CState ℕ) (.edit .err)).drawQueue
      = (⟨some (.ok 7), [], .frame 7⟩ : CState ℕ).drawQueue ∧
    (run (⟨some (.ok 7), [], .frame 7⟩ : CState ℕ)
        [.edit .err, .redraw, .frame]).canvas = .blank :=
  c2_rejection_keeps_frame_until_redraw (⟨some (.ok 7), [], .frame 7⟩ : CState ℕ)

end Reflections
